import Mathlib

/-!
Shallow embedding of the CHIP-8 emulator core (`src/cpu/mod.rs`,
`src/cpu/display.rs`, `src/cpu/keyboard.rs`) and verification of the
specification claims about it.

Machine bytes and words are modelled as `Nat` with explicit `% 256` /
`% 65536` where the Rust code performs wrapping `u8`/`u16` arithmetic.
Fixed-size Rust arrays are modelled as `List Nat` (resp. `List Bool`);
indexing that can panic in Rust is modelled with `getElem?`, an operation
returning `Option`, and functions that can panic return `Option`
(`none` = panic/abort).
-/

set_option maxRecDepth 100000

namespace Chip8

/-- Display width in pixels (`WIDTH` in display.rs). -/
def WIDTH : Nat := 64

/-- Display height in pixels (`HEIGHT` in display.rs). -/
def HEIGHT : Nat := 32

/-- `byte_index` from display.rs: extract bit `index` of `byte`. -/
def byte_index (byte : Nat) (index : Nat) : Nat :=
  (byte &&& (1 <<< index)) >>> index

/-- Sprite width in bits (`BYTE_WIDTH` in `draw_sprite`). -/
def BYTE_WIDTH : Nat := 8

/-- The `row` computed inside `draw_sprite`: `((vy + r) * WIDTH) % (HEIGHT * WIDTH)`. -/
def spriteRow (vy r : Nat) : Nat := ((vy + r) * WIDTH) % (HEIGHT * WIDTH)

/-- The `col` computed inside `draw_sprite`: `(vx + bit_index) % WIDTH`. -/
def spriteCol (vx bit_index : Nat) : Nat := (vx + bit_index) % WIDTH

/-- The `screen_index` computed inside `draw_sprite`: `row + col`. -/
def screenIndex (vx vy r bit_index : Nat) : Nat := spriteRow vy r + spriteCol vx bit_index

/-- One iteration of the inner `for bit_index in 0..BYTE_WIDTH` loop of
`draw_sprite`.  The state is the screen contents together with the `res`
(collision) accumulator.  The screen access is modelled with `getElem?`;
an out-of-bounds access (a Rust panic) yields `none`. -/
def drawPixel (vx vy r bit_index byte : Nat) (st : List Nat × Bool) :
    Option (List Nat × Bool) :=
  let screen_index := screenIndex vx vy r bit_index
  let pixel := byte_index byte (BYTE_WIDTH - bit_index - 1)
  match st.1[screen_index]? with
  | none => none
  | some cur =>
      let newPixel := cur ^^^ pixel
      some (st.1.set screen_index newPixel, st.2 || (newPixel == 0))

/-- The inner loop of `draw_sprite` over `bit_index in 0..BYTE_WIDTH` for one
sprite row `r` holding `byte`. -/
def drawRow (vx vy r byte : Nat) (st : List Nat × Bool) : Option (List Nat × Bool) :=
  (List.range BYTE_WIDTH).foldlM (fun acc bit_index => drawPixel vx vy r bit_index byte acc) st

/-- `Display::draw_sprite` from display.rs, over the raw screen list.
The slice `memory[I..I+n]` panics unless `I + n <= memory.len()`, modelled
by the guard; `enum` models `.iter().enumerate()`.  Returns the new screen
and the collision flag `res` (which the source computes as
`res || (post_xor_value == 0)` at every plotted pixel). -/
def draw_sprite (screen memory : List Nat) (n I vx vy : Nat) :
    Option (List Nat × Bool) :=
  if I + n ≤ memory.length then
    ((memory.drop I).take n).enum.foldlM
      (fun acc rb => drawRow vx vy rb.1 rb.2 acc) (screen, false)
  else none

/-- The keypad (`Keyboard` in keyboard.rs): 16 boolean switches. -/
structure Keyboard where
  keys : List Bool
deriving Repr, DecidableEq

/-- The framebuffer (`Display` in display.rs): `WIDTH * HEIGHT` pixel bytes. -/
structure Display where
  screen : List Nat
deriving Repr, DecidableEq

/-- The machine state (`CPU` in mod.rs). -/
structure CPU where
  memory : List Nat
  V : List Nat
  I : Nat
  DT : Nat
  ST : Nat
  PC : Nat
  SP : Nat
  stack : List Nat
  keyboard : Keyboard
  display : Display
deriving Repr, DecidableEq

/-- `FONT_SET` from mod.rs: the 80-byte hexadecimal font. -/
def FONT_SET : List Nat :=
  [0xF0, 0x90, 0x90, 0x90, 0xF0,
   0x20, 0x60, 0x20, 0x20, 0x70,
   0xF0, 0x10, 0xF0, 0x80, 0xF0,
   0xF0, 0x10, 0xF0, 0x10, 0xF0,
   0x90, 0x90, 0xF0, 0x10, 0x10,
   0xF0, 0x80, 0xF0, 0x10, 0xF0,
   0xF0, 0x80, 0xF0, 0x90, 0xF0,
   0xF0, 0x10, 0x20, 0x40, 0x40,
   0xF0, 0x90, 0xF0, 0x90, 0xF0,
   0xF0, 0x90, 0xF0, 0x10, 0xF0,
   0xF0, 0x90, 0xF0, 0x90, 0x90,
   0xE0, 0x90, 0xE0, 0x90, 0xE0,
   0xF0, 0x80, 0x80, 0x80, 0xF0,
   0xE0, 0x90, 0x90, 0x90, 0xE0,
   0xF0, 0x80, 0xF0, 0x80, 0xF0,
   0xF0, 0x80, 0xF0, 0x80, 0x80]

/-- Write the elements of `src` into `dst` starting at position `start`;
models `copy_from_slice` into `dst[start..start + src.len()]`. -/
def writeRange (dst : List Nat) (start : Nat) : List Nat → List Nat
  | [] => dst
  | b :: bs => writeRange (dst.set start b) (start + 1) bs

/-- The machine state after `CPU::reset()`: registers zeroed, `PC = 0x200`,
keypad cleared, display cleared, and `FONT_SET` copied to `memory[0..80]`. -/
def resetCPU : CPU :=
  { memory := FONT_SET ++ List.replicate (4096 - 80) 0
    V := List.replicate 16 0
    I := 0
    DT := 0
    ST := 0
    PC := 0x200
    SP := 0
    stack := List.replicate 16 0
    keyboard := ⟨List.replicate 16 false⟩
    display := ⟨List.replicate (WIDTH * HEIGHT) 0⟩ }

/-- `CPU::load_rom`: copy the ROM bytes into memory starting at 0x200. -/
def load_rom (cpu : CPU) (rom : List Nat) : CPU :=
  { cpu with memory := writeRange cpu.memory 0x200 rom }

/-- `CPU::read_opcode`: big-endian 16-bit fetch of `memory[PC]` and
`memory[PC + 1]` (the `+ 1` is wrapping `u16` arithmetic); an out-of-bounds
fetch (Rust panic) is `none`. -/
def read_opcode (cpu : CPU) : Option Nat :=
  match cpu.memory[cpu.PC]?, cpu.memory[(cpu.PC + 1) % 65536]? with
  | some hi, some lo => some ((hi <<< 8) ||| lo)
  | _, _ => none

/-- Wrapping `u8` subtraction `a - b` (Rust `overflowing_sub` value part),
for `a`, `b` arbitrary naturals standing for bytes. -/
def wrapSub (a b : Nat) : Nat := (a + 256 - b % 256) % 256

/-- The `for &key in self.keyboard.keys().iter()` loop of the arm the source
labels `Fx0A - LD Vx, K` (matched at low byte `0x08`): for every key that is
down, set `V[x] = key as u8` (which is the constant 1, since `key : bool` is
`true` in the branch) and advance PC by 2.  The state is `(V, PC)`. -/
def waitKeyFold (x : Nat) (keys : List Bool) (V : List Nat) (PC : Nat) :
    List Nat × Nat :=
  keys.foldl (fun acc key => if key then (acc.1.set x 1, (acc.2 + 2) % 65536) else acc)
    (V, PC)

/-- The dispatch of `CPU::process_opcode` after the two register reads
`let vx = self.V[x]` / `let vy = self.V[y]`: the decoded fields are
recomputed with `%` and `/` (equal to the source's mask-and-shift on 16-bit
words), the default `PC += 2` happens before dispatch, and the `match` over
opcode ranges is rendered as an if-chain in source order.  `randomByte`
models the value drawn from `rand::random::<u8>()` in the `Cxkk` arm.  Any
array/slice access that can panic in Rust is guarded and yields `none`. -/
def process_body (cpu : CPU) (opcode randomByte vx vy : Nat) : Option CPU :=
  let nnn := opcode % 4096
  let n := opcode % 16
  let x := (opcode / 256) % 16
  let kk := opcode % 256
  let c := { cpu with PC := (cpu.PC + 2) % 65536 }
  (
    if opcode = 0x00E0 then
      some { c with display := ⟨List.replicate (WIDTH * HEIGHT) 0⟩ }
    else if opcode = 0x00EE then
      if c.SP = 0 then none
      else
        match c.stack[c.SP - 1]? with
        | none => none
        | some addr => some { c with SP := c.SP - 1, PC := addr }
    else if opcode < 0x1000 then some c
    else if opcode ≤ 0x1FFF then some { c with PC := nnn }
    else if opcode ≤ 0x2FFF then
      if c.SP < c.stack.length then
        some { c with stack := c.stack.set c.SP c.PC, SP := (c.SP + 1) % 256, PC := nnn }
      else none
    else if opcode ≤ 0x3FFF then
      some (if vx = kk then { c with PC := (c.PC + 2) % 65536 } else c)
    else if opcode ≤ 0x4FFF then
      some (if vx ≠ kk then { c with PC := (c.PC + 2) % 65536 } else c)
    else if opcode ≤ 0x5FFF then
      some (if vx = vy then { c with PC := (c.PC + 2) % 65536 } else c)
    else if opcode ≤ 0x6FFF then some { c with V := c.V.set x kk }
    else if opcode ≤ 0x7FFF then some { c with V := c.V.set x ((vx + kk) % 256) }
    else if opcode ≤ 0x8FFF then
      if n = 0 then some { c with V := c.V.set x vy }
      else if n = 1 then some { c with V := c.V.set x (vx ||| vy) }
      else if n = 2 then some { c with V := c.V.set x (vx &&& vy) }
      else if n = 3 then some { c with V := c.V.set x (vx ^^^ vy) }
      else if n = 4 then
        some { c with V := (c.V.set 0xF (if 256 ≤ vx + vy then 1 else 0)).set x ((vx + vy) % 256) }
      else if n = 5 then
        some { c with V := (c.V.set 0xF (if vx < vy then 1 else 0)).set x (wrapSub vx vy) }
      else if n = 6 then
        let V1 := c.V.set 0xF (vx &&& 0b1)
        some { c with V := V1.set x (V1.getD x 0 / 2) }
      else if n = 7 then
        some { c with V := (c.V.set 0xF (if vy < vx then 1 else 0)).set x (wrapSub vy vx) }
      else if n = 0xE then
        let V1 := c.V.set 0xF ((vx &&& 0b10000000) >>> 7)
        some { c with V := V1.set x (V1.getD x 0 * 2 % 256) }
      else some c
    else if opcode ≤ 0x9FFF then
      some (if vx = vy then { c with PC := (c.PC + 2) % 65536 } else c)
    else if opcode ≤ 0xAFFF then some { c with I := nnn }
    else if opcode ≤ 0xBFFF then some { c with PC := (c.V.getD 0 0 + nnn) % 65536 }
    else if opcode ≤ 0xCFFF then some { c with V := c.V.set x ((randomByte % 256) &&& kk) }
    else if opcode ≤ 0xDFFF then
      match draw_sprite c.display.screen c.memory n c.I vx vy with
      | none => none
      | some (scr, collision) =>
          some { c with display := ⟨scr⟩, V := c.V.set 0xF (if collision then 1 else 0) }
    else if opcode ≤ 0xEFFF then
      if kk = 0x9E then
        match c.keyboard.keys[vx]? with
        | none => none
        | some p => some (if p then { c with PC := (c.PC + 2) % 65536 } else c)
      else if kk = 0xA1 then
        match c.keyboard.keys[vx]? with
        | none => none
        | some p => some (if ¬p then { c with PC := (c.PC + 2) % 65536 } else c)
      else some c
    else
      if kk = 0x07 then some { c with V := c.V.set x (c.DT % 256) }
      else if kk = 0x08 then
        if c.PC < 2 then none
        else
          let st := waitKeyFold x c.keyboard.keys c.V (c.PC - 2)
          some { c with V := st.1, PC := st.2 }
      else if kk = 0x15 then some { c with DT := vx }
      else if kk = 0x18 then some { c with ST := vx }
      else if kk = 0x1E then some { c with I := (c.I + vx) % 65536 }
      else if kk = 0x29 then some { c with I := (vx * 5) % 256 }
      else if kk = 0x33 then
        if c.I + 2 < c.memory.length then
          let mem1 := c.memory.set c.I ((vx / 100) % 10)
          let mem2 := mem1.set (c.I + 1) ((vx / 10) % 10)
          some { c with memory := mem2.set (c.I + 2) (vx % 10) }
        else none
      else if kk = 0x55 then
        if x + 1 ≤ c.V.length ∧ c.I + x + 1 ≤ c.memory.length then
          some { c with memory := writeRange c.memory c.I (c.V.take (x + 1)) }
        else none
      else if kk = 0x65 then
        if x + 1 ≤ c.V.length ∧ c.I + x + 1 ≤ c.memory.length then
          some { c with V := writeRange c.V 0 ((c.memory.drop c.I).take (x + 1)) }
        else none
      else some c
  )

/-- `CPU::process_opcode` from mod.rs: read `V[x]` and `V[y]` (panicking —
`none` — if out of bounds, which cannot happen for a well-formed 16-entry
register file since `x, y < 16`), then dispatch via `process_body`. -/
def process_opcode (cpu : CPU) (opcode randomByte : Nat) : Option CPU :=
  match cpu.V[(opcode / 256) % 16]?, cpu.V[(opcode / 16) % 16]? with
  | some vx, some vy => process_body cpu opcode randomByte vx vy
  | _, _ => none

/-- `CPU::execute_cycle`: fetch then dispatch. -/
def execute_cycle (cpu : CPU) (randomByte : Nat) : Option CPU :=
  match read_opcode cpu with
  | none => none
  | some opcode => process_opcode cpu opcode randomByte

/-- A small concrete machine state used to evaluate single instructions:
empty memory, zeroed registers, `PC = 0x200`, all keys up, cleared 64×32
screen. -/
def cpu0 : CPU :=
  { memory := []
    V := List.replicate 16 0
    I := 0
    DT := 0
    ST := 0
    PC := 0x200
    SP := 0
    stack := List.replicate 16 0
    keyboard := ⟨List.replicate 16 false⟩
    display := ⟨List.replicate (WIDTH * HEIGHT) 0⟩ }

/-- A concrete machine whose two memory bytes hold the single instruction
`F50A` at `PC = 0`, with all 16 keys up. -/
def cpuWait : CPU :=
  { memory := [0xF5, 0x0A]
    V := List.replicate 16 0
    I := 0
    DT := 0
    ST := 0
    PC := 0
    SP := 0
    stack := List.replicate 16 0
    keyboard := ⟨List.replicate 16 false⟩
    display := ⟨List.replicate (WIDTH * HEIGHT) 0⟩ }

/-- The reset machine with the two-byte ROM `12 01` (`JP 0x201`) loaded. -/
def cpuC9 : CPU := load_rom resetCPU [0x12, 0x01]

/-- An opcode that lies inside one of the decoded families of
`process_opcode`/`process_body` but is assigned no operation there: the
`0x0nnn` range apart from `00E0`/`00EE`, an `8xyk` whose low nibble is none
of `0..7, 0xE`, an `Exkk` whose low byte is neither `9E` nor `A1`, and an
`Fxkk` whose low byte is none of the nine matched values (note `0x08` IS
matched — it is the key-wait arm). -/
def unknown_opcode (op : Nat) : Prop :=
  (op < 0x1000 ∧ op ≠ 0x00E0 ∧ op ≠ 0x00EE)
  ∨ (0x8000 ≤ op ∧ op ≤ 0x8FFF ∧ 8 ≤ op % 16 ∧ op % 16 ≠ 0xE)
  ∨ (0xE000 ≤ op ∧ op ≤ 0xEFFF ∧ op % 256 ≠ 0x9E ∧ op % 256 ≠ 0xA1)
  ∨ (0xF000 ≤ op ∧ op ≤ 0xFFFF ∧ op % 256 ≠ 0x07 ∧ op % 256 ≠ 0x08
      ∧ op % 256 ≠ 0x15 ∧ op % 256 ≠ 0x18 ∧ op % 256 ≠ 0x1E ∧ op % 256 ≠ 0x29
      ∧ op % 256 ≠ 0x33 ∧ op % 256 ≠ 0x55 ∧ op % 256 ≠ 0x65)

instance (op : Nat) : Decidable (unknown_opcode op) := by
  unfold unknown_opcode; infer_instance

lemma screenIndex_lt (vx vy r b : Nat) : screenIndex vx vy r b < 2048 := by
  have h1 : spriteRow vy r = ((vy + r) % 32) * 64 := by
    have h := Nat.mul_mod_mul_right 64 (vy + r) 32
    simpa [spriteRow, WIDTH, HEIGHT] using h
  have h2 : (vy + r) % 32 < 32 := Nat.mod_lt _ (by norm_num)
  have h3 : spriteCol vx b < 64 := Nat.mod_lt _ (by norm_num [WIDTH])
  unfold screenIndex
  omega

lemma drawPixel_on_zeros (vx vy r b : Nat) (res : Bool) :
    drawPixel vx vy r b 0 (List.replicate 2048 0, res) =
      some (List.replicate 2048 0, true) := by
  have hidx : screenIndex vx vy r b < 2048 := screenIndex_lt vx vy r b
  simp only [drawPixel, byte_index, Nat.zero_and, Nat.zero_shiftRight]
  rw [List.getElem?_replicate_of_lt hidx]
  simp [-List.reduceReplicate]

lemma drawRow_on_zeros (vx vy r : Nat) (res : Bool) :
    drawRow vx vy r 0 (List.replicate 2048 0, res) =
      some (List.replicate 2048 0, true) := by
  simp [drawRow, BYTE_WIDTH, List.range_succ, List.foldlM, drawPixel_on_zeros,
    -List.reduceReplicate]

lemma writeRange_length (l : List Nat) :
    ∀ (dst : List Nat) (start : Nat), (writeRange dst start l).length = dst.length := by
  induction l with
  | nil => intro dst start; simp [writeRange]
  | cons b bs ih => intro dst start; simp [writeRange, ih]

lemma writeRange_getElem?_lt (l : List Nat) :
    ∀ (dst : List Nat) (start i : Nat), i < start →
      (writeRange dst start l)[i]? = dst[i]? := by
  induction l with
  | nil => intro dst start i _; simp [writeRange]
  | cons b bs ih =>
      intro dst start i h
      rw [writeRange, ih _ _ _ (by omega), List.getElem?_set_ne (by omega)]

lemma writeRange_getElem?_mem (l : List Nat) :
    ∀ (dst : List Nat) (start i : Nat), start ≤ i → i < start + l.length →
      i < dst.length → (writeRange dst start l)[i]? = l[i - start]? := by
  induction l with
  | nil => intro dst start i h1 h2 _; simp at h2; omega
  | cons b bs ih =>
      intro dst start i h1 h2 h3
      rw [writeRange]
      rcases Nat.eq_or_lt_of_le h1 with heq | hlt
      · subst heq
        rw [writeRange_getElem?_lt _ _ _ _ (by omega),
          List.getElem?_set_self (by omega), Nat.sub_self, List.getElem?_cons_zero]
      · rw [ih _ _ _ (by omega) (by simp at h2 ⊢; omega) (by simp; omega)]
        have hs : i - start = (i - (start + 1)) + 1 := by omega
        rw [hs, List.getElem?_cons_succ]

lemma cpuC9_mem512 : cpuC9.memory[512]? = some 0x12 := by
  have hfs : FONT_SET.length = 80 := rfl
  have hlen : (FONT_SET ++ List.replicate (4096 - 80) 0).length = 4096 := by
    simp [List.length_append, List.length_replicate, hfs, -List.reduceReplicate]
  rw [show cpuC9.memory
      = writeRange (FONT_SET ++ List.replicate (4096 - 80) 0) 512 [0x12, 0x01] from rfl,
    writeRange_getElem?_mem _ _ _ _ (by omega) (by simp) (by omega)]
  norm_num

lemma cpuC9_mem513 : cpuC9.memory[513]? = some 0x01 := by
  have hfs : FONT_SET.length = 80 := rfl
  have hlen : (FONT_SET ++ List.replicate (4096 - 80) 0).length = 4096 := by
    simp [List.length_append, List.length_replicate, hfs, -List.reduceReplicate]
  rw [show cpuC9.memory
      = writeRange (FONT_SET ++ List.replicate (4096 - 80) 0) 512 [0x12, 0x01] from rfl,
    writeRange_getElem?_mem _ _ _ _ (by omega) (by simp) (by omega)]
  norm_num

lemma cpuC9_read : read_opcode cpuC9 = some 0x1201 := by
  unfold read_opcode
  rw [show cpuC9.PC = 512 from rfl]
  norm_num
  rw [cpuC9_mem512, cpuC9_mem513]
  rfl

lemma process_opcode_eq (cpu : CPU) (op rb : Nat) (hV : cpu.V.length = 16) :
    process_opcode cpu op rb =
      process_body cpu op rb (cpu.V.getD ((op / 256) % 16) 0)
        (cpu.V.getD ((op / 16) % 16) 0) := by
  have hx : (op / 256) % 16 < cpu.V.length := by rw [hV]; exact Nat.mod_lt _ (by norm_num)
  have hy : (op / 16) % 16 < cpu.V.length := by rw [hV]; exact Nat.mod_lt _ (by norm_num)
  unfold process_opcode
  rw [List.getElem?_eq_getElem hx, List.getElem?_eq_getElem hy,
    List.getD_eq_getElem cpu.V 0 hx, List.getD_eq_getElem cpu.V 0 hy]

lemma waitKeyFold_PC (x : Nat) (keys : List Bool) :
    ∀ (V : List Nat) (PC : Nat), (waitKeyFold x keys V PC).2 % 2 = PC % 2 := by
  induction keys with
  | nil => intro V PC; rfl
  | cons k ks ih =>
      intro V PC
      unfold waitKeyFold at ih ⊢
      rw [List.foldl_cons]
      cases k
      · simpa using ih V PC
      · simp only [if_pos]
        rw [ih]
        omega

lemma writeRange_getElem?_ge (l : List Nat) :
    ∀ (dst : List Nat) (start i : Nat), start + l.length ≤ i →
      (writeRange dst start l)[i]? = dst[i]? := by
  induction l with
  | nil => intro dst start i _; simp [writeRange]
  | cons b bs ih =>
      intro dst start i h
      simp only [List.length_cons] at h
      rw [writeRange, ih _ _ _ (by omega), List.getElem?_set_ne (by omega)]

lemma writeRange_slice (l : List Nat) (dst : List Nat) (start : Nat)
    (h : start + l.length ≤ dst.length) :
    ((writeRange dst start l).drop start).take l.length = l := by
  apply List.ext_getElem?
  intro i
  rcases Nat.lt_or_ge i l.length with hi | hi
  · rw [List.getElem?_take_of_lt hi, List.getElem?_drop,
      writeRange_getElem?_mem l dst start (start + i) (by omega)
        (by omega) (by omega)]
    congr 1
    omega
  · rw [List.getElem?_take_eq_none hi, List.getElem?_eq_none hi]

lemma writeRange_self_prefix (dst : List Nat) (k : Nat) :
    writeRange dst 0 (dst.take k) = dst := by
  apply List.ext_getElem?
  intro i
  rcases Nat.lt_or_ge i (dst.take k).length with hi | hi
  · rw [writeRange_getElem?_mem _ dst 0 i (by omega) (by omega)
      (by simp at hi; omega)]
    simp only [Nat.sub_zero]
    have hik : i < k := by simp at hi; omega
    exact List.getElem?_take_of_lt hik
  · rw [writeRange_getElem?_ge _ dst 0 i (by omega)]

lemma drawPixel_some (vx vy r b byte : Nat) (scr : List Nat) (res : Bool)
    (h : scr.length = 2048) :
    ∃ st', drawPixel vx vy r b byte (scr, res) = some st' ∧ st'.1.length = 2048 := by
  have hidx : screenIndex vx vy r b < scr.length := by
    rw [h]; exact screenIndex_lt vx vy r b
  simp only [drawPixel]
  rw [List.getElem?_eq_getElem hidx]
  exact ⟨_, rfl, by simpa using h⟩

lemma foldlM_drawPixel_some (vx vy r byte : Nat) (bs : List Nat) :
    ∀ (st : List Nat × Bool), st.1.length = 2048 →
      ∃ st', bs.foldlM (fun acc b => drawPixel vx vy r b byte acc) st = some st'
        ∧ st'.1.length = 2048 := by
  induction bs with
  | nil => intro st h; exact ⟨st, rfl, h⟩
  | cons b bs ih =>
      intro st h
      obtain ⟨st1, h1, hl1⟩ := drawPixel_some vx vy r b byte st.1 st.2 h
      obtain ⟨st2, h2, hl2⟩ := ih st1 hl1
      refine ⟨st2, ?_, hl2⟩
      rw [List.foldlM_cons]
      simpa [h1] using h2

lemma drawRow_some (vx vy r byte : Nat) (st : List Nat × Bool) (h : st.1.length = 2048) :
    ∃ st', drawRow vx vy r byte st = some st' ∧ st'.1.length = 2048 :=
  foldlM_drawPixel_some vx vy r byte (List.range BYTE_WIDTH) st h

lemma foldlM_drawRow_some (vx vy : Nat) (pairs : List (Nat × Nat)) :
    ∀ (st : List Nat × Bool), st.1.length = 2048 →
      ∃ st', pairs.foldlM (fun acc rb => drawRow vx vy rb.1 rb.2 acc) st = some st'
        ∧ st'.1.length = 2048 := by
  induction pairs with
  | nil => intro st h; exact ⟨st, rfl, h⟩
  | cons p ps ih =>
      intro st h
      obtain ⟨st1, h1, hl1⟩ := drawRow_some vx vy p.1 p.2 st h
      obtain ⟨st2, h2, hl2⟩ := ih st1 hl1
      refine ⟨st2, ?_, hl2⟩
      rw [List.foldlM_cons]
      simpa [h1] using h2

lemma process_call (cpu : CPU) (nnn rb : Nat) (hV : cpu.V.length = 16)
    (hnnn : nnn < 4096) (hSP : cpu.SP < cpu.stack.length) :
    process_opcode cpu (0x2000 + nnn) rb =
      some { cpu with stack := cpu.stack.set cpu.SP ((cpu.PC + 2) % 65536),
                      SP := (cpu.SP + 1) % 256, PC := nnn } := by
  rw [process_opcode_eq cpu _ rb hV]
  unfold process_body
  rw [if_neg (by omega), if_neg (by omega), if_neg (by omega), if_neg (by omega),
    if_pos (by omega), if_pos hSP]
  congr 2
  omega

lemma process_ret (cpu : CPU) (rb : Nat) (hV : cpu.V.length = 16)
    (hSP : cpu.SP ≠ 0) (hSPlen : cpu.SP - 1 < cpu.stack.length) :
    process_opcode cpu 0x00EE rb =
      some { cpu with SP := cpu.SP - 1, PC := cpu.stack.getD (cpu.SP - 1) 0 } := by
  rw [process_opcode_eq cpu _ rb hV]
  unfold process_body
  rw [if_neg (by omega), if_pos rfl, if_neg hSP,
    List.getElem?_eq_getElem hSPlen, List.getD_eq_getElem cpu.stack 0 hSPlen]

lemma process_store (cpu : CPU) (x rb : Nat) (hV : cpu.V.length = 16) (hx : x < 16)
    (hmem : cpu.I + x + 1 ≤ cpu.memory.length) :
    process_opcode cpu (0xF055 + 256 * x) rb =
      some { cpu with memory := writeRange cpu.memory cpu.I (cpu.V.take (x + 1)),
                      PC := (cpu.PC + 2) % 65536 } := by
  rw [process_opcode_eq _ _ _ hV]
  unfold process_body
  rw [show (0xF055 + 256 * x) / 256 % 16 = x from by omega,
    show (0xF055 + 256 * x) % 256 = 0x55 from by omega]
  repeat rw [if_neg (by omega)]
  rw [if_pos rfl, if_pos ⟨by show x + 1 ≤ cpu.V.length; omega, hmem⟩]

lemma process_load (cpu : CPU) (x rb : Nat) (hV : cpu.V.length = 16) (hx : x < 16)
    (hmem : cpu.I + x + 1 ≤ cpu.memory.length) :
    process_opcode cpu (0xF065 + 256 * x) rb =
      some { cpu with V := writeRange cpu.V 0 ((cpu.memory.drop cpu.I).take (x + 1)),
                      PC := (cpu.PC + 2) % 65536 } := by
  rw [process_opcode_eq _ _ _ hV]
  unfold process_body
  rw [show (0xF065 + 256 * x) / 256 % 16 = x from by omega,
    show (0xF065 + 256 * x) % 256 = 0x65 from by omega]
  repeat rw [if_neg (by omega)]
  rw [if_pos rfl, if_pos ⟨by show x + 1 ≤ cpu.V.length; omega, hmem⟩]

/-- Claim C1 (code bug, `draw_sprite` collision rule): drawing the one-byte
all-zero sprite onto an all-zero framebuffer erases nothing — the screen is
returned unchanged, every pixel 0 before and after — yet `draw_sprite`
reports `collision = true`, because the source computes
`res = res || (screen[screen_index] == 0)`, i.e. it tests whether the
post-XOR value is 0 instead of testing for a 1→0 transition.  This
contradicts the function's own documentation ("If this causes any pixels to
be erased, VF is set to 1, otherwise it is set to 0") and the claimed
"drawing any sprite onto an all-zero framebuffer reports collision =
false". -/
theorem draw_sprite_reports_collision_without_erasure :
    (draw_sprite (List.replicate 2048 0) [0] 1 0 0 0).map Prod.snd = some true
      ∧ (draw_sprite (List.replicate 2048 0) [0] 1 0 0 0).map Prod.fst
          = some (List.replicate 2048 0) := by
  have h : draw_sprite (List.replicate 2048 0) [0] 1 0 0 0
      = some (List.replicate 2048 0, true) := by
    simp [draw_sprite, List.foldlM, drawRow_on_zeros, List.enum, -List.reduceReplicate]
  rw [h]
  exact ⟨rfl, rfl⟩

/-- Claim C2 (code bug, key wait): the key-wait arm is matched at low byte
`0x08`, not `0x0A`, so an actual `Fx0A` instruction falls into the family's
default arm — a cycle on `F50A` with all keys up advances PC by 2 instead
of leaving it unchanged.  Moreover the arm that is reached by `F508` stores
`key as u8 = 1` into Vx, not the key's index: with only key 7 down, `F508`
sets V5 to 1, not 7 (while advancing PC by 2).  Both contradict the arm's
own doc comment ("Fx0A - LD Vx, K ... the value of that key is stored in
Vx"). -/
theorem key_wait_is_wired_to_Fx08_and_stores_one :
    execute_cycle cpuWait 0 = some { cpuWait with PC := 2 }
      ∧ (process_opcode
            { cpu0 with keyboard := ⟨(List.replicate 16 false).set 7 true⟩ }
            0xF508 0).map (fun c => (c.PC, c.V.getD 5 0)) = some (0x202, 1) :=
  ⟨rfl, rfl⟩

/-- Claim C3 (code bug, `9xy0`): the source implements `9xy0` with the same
equality test as `5xy0` — it skips when `Vx == Vy` and does not skip when
`Vx != Vy`, the inverse of the documented SNE semantics (its own comment
reads "if they are not equal, the program counter is increased by 2").
With `V1 = V2 = 5`, opcode `0x9120` advances PC by 4 (claim says 2); with
`V1 = 5, V2 = 0`, it advances PC by 2 (claim says 4). -/
theorem sne_register_skips_on_equality :
    (process_opcode { cpu0 with V := ((List.replicate 16 0).set 1 5).set 2 5 }
        0x9120 0).map CPU.PC = some 0x204
      ∧ (process_opcode { cpu0 with V := (List.replicate 16 0).set 1 5 }
          0x9120 0).map CPU.PC = some 0x202 :=
  ⟨rfl, rfl⟩

/-- Claim C4 (code bug, ALU flags): with `V1 = 5, V2 = 3`, `8xy5` (SUB)
yields `V1 = 2` but `VF = 0` — the source sets VF from `overflowing_sub`'s
borrow bit, the inverse of the documented not-borrow ("If Vx > Vy, then VF
is set to 1"); symmetrically `8xy7` (SUBN) yields `VF = 1` where the
documented not-borrow flag is 0; and with `x = 0xF` (here `8FF4` with
`VF = 200`) the result write clobbers the flag: final VF is the 8-bit sum
144, not the carry flag 1. -/
theorem alu_flag_borrow_inverted_and_clobbered :
    (process_opcode { cpu0 with V := ((List.replicate 16 0).set 1 5).set 2 3 }
        0x8125 0).map (fun c => (c.V.getD 1 0, c.V.getD 0xF 0)) = some (2, 0)
      ∧ (process_opcode { cpu0 with V := ((List.replicate 16 0).set 1 5).set 2 3 }
          0x8127 0).map (fun c => (c.V.getD 1 0, c.V.getD 0xF 0)) = some (254, 1)
      ∧ (process_opcode { cpu0 with V := (List.replicate 16 0).set 15 200 }
          0x8FF4 0).map (fun c => c.V.getD 0xF 0) = some 144 :=
  ⟨rfl, rfl, rfl⟩

/-- Claim C7 counterexample: inside the draw of the 8×8 all-ones sprite at
`(x, y) = (60, 30)` on a blank screen, the plot of sprite row `r = 4`, bit
`b = 4` lands at screen index `128 = 64 * 2 + 0`, i.e. at row 2, column 0:
a wrapped pixel (since `30 + 4 ≥ 32`) outside "row 0–1", so the wrapped
pixels of this sprite are not confined to rows 0–1 (its 8 rows land at rows
30, 31, 0, 1, 2, 3, 4 and 5). -/
theorem eight_by_eight_wrap_reaches_row_two :
    drawPixel 60 30 4 4 255 (List.replicate 2048 0, false) =
      some ((List.replicate 2048 0).set 128 1, false) := by
  simp [drawPixel, screenIndex, spriteRow, spriteCol, byte_index, BYTE_WIDTH, WIDTH,
    HEIGHT]
  decide

/-- Claim C8 counterexample: opcode `0xF008` is not an unassigned opcode in
this code — it is the (mislabeled) key-wait arm.  With all keys up it
changes nothing at all, including PC: the result is the unchanged input
state, not the input state with PC advanced by 2 as the claim requires for
unknown `0xFxkk` opcodes. -/
theorem Fx08_is_not_a_noop_with_pc_advance :
    process_opcode cpu0 0xF008 0 = some cpu0 := rfl

/-- Claim C9 counterexample: from the reset state, load the two-byte ROM
`[0x12, 0x01]` (the jump `JP 0x201`) and execute one cycle: PC becomes
0x201, an odd address — the evenness invariant is not preserved by jumps
to arbitrary `nnn`. -/
theorem jump_can_make_pc_odd :
    (execute_cycle cpuC9 0).map CPU.PC = some 0x201 ∧ 0x201 % 2 = 1 := by
  refine ⟨?_, rfl⟩
  have h : execute_cycle cpuC9 0 = process_opcode cpuC9 0x1201 0 := by
    rw [execute_cycle, cpuC9_read]
  rw [h]
  unfold process_opcode
  rw [show cpuC9.V = List.replicate 16 0 from rfl]
  simp [process_body, -List.reduceReplicate]

/-- Claim C5: from any machine state with `SP < 16` (any nesting depth up
to 16), executing `CALL nnn` (2nnn) and then `RET` (00EE) restores PC to
the address just after the CALL — the pre-CALL PC plus 2 (in 16-bit
arithmetic) — and restores SP; the CALL stores the already-advanced PC at
`stack[SP]` and then increments SP, and RET decrements SP first and then
reads `stack[SP]`. -/
theorem call_then_ret_restores_pc_and_sp (cpu : CPU) (nnn rb rb' : Nat)
    (hV : cpu.V.length = 16) (hSP : cpu.SP < 16) (hstack : cpu.stack.length = 16)
    (hnnn : nnn < 4096) :
    ∃ c1 c2,
      process_opcode cpu (0x2000 + nnn) rb = some c1
      ∧ c1.PC = nnn ∧ c1.SP = cpu.SP + 1
      ∧ c1.stack[cpu.SP]? = some ((cpu.PC + 2) % 65536)
      ∧ process_opcode c1 0x00EE rb' = some c2
      ∧ c2.PC = (cpu.PC + 2) % 65536 ∧ c2.SP = cpu.SP
      ∧ c2.V = cpu.V ∧ c2.memory = cpu.memory := by
  have hmod : (cpu.SP + 1) % 256 = cpu.SP + 1 := Nat.mod_eq_of_lt (by omega)
  have hcall := process_call cpu nnn rb hV hnnn (by omega)
  refine ⟨_, _, hcall, rfl, hmod, List.getElem?_set_self (by omega),
    process_ret _ rb' hV
      (by show (cpu.SP + 1) % 256 ≠ 0; omega)
      (by show (cpu.SP + 1) % 256 - 1 < (cpu.stack.set cpu.SP ((cpu.PC + 2) % 65536)).length
          rw [List.length_set]; omega),
    ?_, by show (cpu.SP + 1) % 256 - 1 = cpu.SP; omega, rfl, rfl⟩
  show (cpu.stack.set cpu.SP ((cpu.PC + 2) % 65536)).getD ((cpu.SP + 1) % 256 - 1) 0
      = (cpu.PC + 2) % 65536
  rw [hmod, Nat.add_sub_cancel,
    List.getD_eq_getElem _ 0 (by rw [List.length_set]; omega),
    List.getElem_set_self]

/-- Claim C5 witness: the round trip instantiated at the concrete reset-like
state `cpu0` (SP = 0, empty stack) with subroutine address 0x300. -/
theorem call_then_ret_restores_pc_and_sp_witness :
    cpu0.V.length = 16 ∧ cpu0.SP < 16 ∧ cpu0.stack.length = 16 ∧ 0x300 < 4096
    ∧ (∃ c1 c2,
        process_opcode cpu0 (0x2000 + 0x300) 0 = some c1
        ∧ c1.PC = 0x300 ∧ c1.SP = cpu0.SP + 1
        ∧ c1.stack[cpu0.SP]? = some ((cpu0.PC + 2) % 65536)
        ∧ process_opcode c1 0x00EE 0 = some c2
        ∧ c2.PC = (cpu0.PC + 2) % 65536 ∧ c2.SP = cpu0.SP
        ∧ c2.V = cpu0.V ∧ c2.memory = cpu0.memory) :=
  ⟨rfl, by norm_num [cpu0], rfl, by norm_num,
    call_then_ret_restores_pc_and_sp cpu0 0x300 0 0 rfl (by norm_num [cpu0]) rfl
      (by norm_num)⟩

/-- Claim C6: for every register file and every `x < 16`, with
`I + x + 1 ≤ 4096`, executing `Fx55` (store V0..Vx at I, the inclusive
range [0, x]) and then `Fx65` (load V0..Vx from the same I) restores the
whole register file; the stored memory slice equals `V0..Vx`. -/
theorem store_then_load_registers_roundtrip (cpu : CPU) (x rb rb' : Nat)
    (hV : cpu.V.length = 16) (hx : x < 16)
    (hmem : cpu.memory.length = 4096) (hI : cpu.I + x + 1 ≤ 4096) :
    ∃ c1 c2,
      process_opcode cpu (0xF055 + 256 * x) rb = some c1
      ∧ (c1.memory.drop cpu.I).take (x + 1) = cpu.V.take (x + 1)
      ∧ c1.V = cpu.V ∧ c1.I = cpu.I
      ∧ process_opcode c1 (0xF065 + 256 * x) rb' = some c2
      ∧ c2.V = cpu.V := by
  have htk : (cpu.V.take (x + 1)).length = x + 1 := by
    rw [List.length_take]; omega
  have hslice : ((writeRange cpu.memory cpu.I (cpu.V.take (x + 1))).drop cpu.I).take (x + 1)
      = cpu.V.take (x + 1) := by
    have h := writeRange_slice (cpu.V.take (x + 1)) cpu.memory cpu.I (by omega)
    rwa [htk] at h
  refine ⟨_, _, process_store cpu x rb hV hx (by omega), hslice, rfl, rfl,
    process_load _ x rb' hV hx
      (by show cpu.I + x + 1 ≤ (writeRange cpu.memory cpu.I (cpu.V.take (x + 1))).length
          rw [writeRange_length]; omega), ?_⟩
  show writeRange cpu.V 0
      (((writeRange cpu.memory cpu.I (cpu.V.take (x + 1))).drop cpu.I).take (x + 1)) = cpu.V
  rw [hslice, writeRange_self_prefix]

/-- Claim C6 witness: the store/load round trip instantiated at a concrete
state with a 4096-byte memory, `I = 0x300` and `x = 3`. -/
theorem store_then_load_registers_roundtrip_witness :
    ({ cpu0 with memory := List.replicate 4096 0, I := 0x300 } : CPU).V.length = 16
    ∧ 3 < 16
    ∧ ({ cpu0 with memory := List.replicate 4096 0, I := 0x300 } : CPU).memory.length = 4096
    ∧ ({ cpu0 with memory := List.replicate 4096 0, I := 0x300 } : CPU).I + 3 + 1 ≤ 4096
    ∧ (∃ c1 c2,
        process_opcode { cpu0 with memory := List.replicate 4096 0, I := 0x300 }
            (0xF055 + 256 * 3) 0 = some c1
        ∧ (c1.memory.drop ({ cpu0 with memory := List.replicate 4096 0, I := 0x300 } : CPU).I).take (3 + 1)
            = ({ cpu0 with memory := List.replicate 4096 0, I := 0x300 } : CPU).V.take (3 + 1)
        ∧ c1.V = ({ cpu0 with memory := List.replicate 4096 0, I := 0x300 } : CPU).V
        ∧ c1.I = ({ cpu0 with memory := List.replicate 4096 0, I := 0x300 } : CPU).I
        ∧ process_opcode c1 (0xF065 + 256 * 3) 0 = some c2
        ∧ c2.V = ({ cpu0 with memory := List.replicate 4096 0, I := 0x300 } : CPU).V) :=
  ⟨rfl, by norm_num,
    by simp [cpu0, List.length_replicate, -List.reduceReplicate],
    by norm_num,
    store_then_load_registers_roundtrip _ 3 0 0 rfl (by norm_num)
      (by simp [cpu0, List.length_replicate, -List.reduceReplicate]) (by norm_num)⟩

/-- Claim C7, amended: in `draw_sprite`, the target index of row `r`, bit
`b` is `64 * ((vy + r) mod 32) + ((vx + b) mod 64)` — row and column wrap
independently — and the sprite bit `byte_index byte (8 - b - 1)` is XOR-ed
onto exactly that pixel; the 8×8 sprite at `(60, 30)` has columns
`60, 61, 62, 63, 0, 1, 2, 3` (wrapping to columns 0–3) and rows
`30, 31, 0, 1, 2, 3, 4, 5` (wrapping to rows 0–5, not just 0–1). -/
theorem sprite_coordinates_wrap_independently :
    (∀ vx vy r b, screenIndex vx vy r b = 64 * ((vy + r) % 32) + (vx + b) % 64)
    ∧ (∀ vx vy r b byte (screen : List Nat) (res : Bool), screen.length = 2048 →
        drawPixel vx vy r b byte (screen, res) =
          some (screen.set (screenIndex vx vy r b)
                  (screen.getD (screenIndex vx vy r b) 0
                    ^^^ byte_index byte (BYTE_WIDTH - b - 1)),
                res || ((screen.getD (screenIndex vx vy r b) 0
                    ^^^ byte_index byte (BYTE_WIDTH - b - 1)) == 0)))
    ∧ (List.range 8).map (fun b => spriteCol 60 b) = [60, 61, 62, 63, 0, 1, 2, 3]
    ∧ (List.range 8).map (fun r => (30 + r) % 32) = [30, 31, 0, 1, 2, 3, 4, 5] := by
  refine ⟨?_, ?_, by decide, by decide⟩
  · intro vx vy r b
    have h1 : spriteRow vy r = ((vy + r) % 32) * 64 := by
      have h := Nat.mul_mod_mul_right 64 (vy + r) 32
      simpa [spriteRow, WIDTH, HEIGHT] using h
    have h2 : spriteCol vx b = (vx + b) % 64 := rfl
    unfold screenIndex
    rw [h1, h2]
    omega
  · intro vx vy r b byte screen res hlen
    have hidx : screenIndex vx vy r b < screen.length := by
      rw [hlen]; exact screenIndex_lt vx vy r b
    simp only [drawPixel]
    rw [List.getElem?_eq_getElem hidx, List.getD_eq_getElem screen 0 hidx]

/-- Claim C7 witness: the drawPixel clause of the amended claim applied at
`vx = 60, vy = 30, r = 0, b = 0, byte = 255` on the blank screen (the
target index is `screenIndex 60 30 0 0 = 1980`, row 30, column 60). -/
theorem sprite_coordinates_wrap_independently_witness :
    (List.replicate 2048 0 : List Nat).length = 2048
    ∧ drawPixel 60 30 0 0 255 (List.replicate 2048 0, false) =
        some ((List.replicate 2048 0).set (screenIndex 60 30 0 0)
                ((List.replicate 2048 0).getD (screenIndex 60 30 0 0) 0
                  ^^^ byte_index 255 (BYTE_WIDTH - 0 - 1)),
              false || (((List.replicate 2048 0).getD (screenIndex 60 30 0 0) 0
                  ^^^ byte_index 255 (BYTE_WIDTH - 0 - 1)) == 0)) :=
  ⟨by simp [-List.reduceReplicate],
    sprite_coordinates_wrap_independently.2.1 60 30 0 0 255 (List.replicate 2048 0)
      false (by simp [-List.reduceReplicate])⟩

/-- Claim C8, amended: every opcode that lies inside a decoded family but
names no operation there — `0x0nnn` other than `00E0`/`00EE`, `8xyk` with
low nibble outside `{0..7, 0xE}`, `Exkk` with low byte outside
`{9E, A1}`, and `Fxkk` with low byte outside the nine matched values
(`Fx08` is NOT one of them: it is the key-wait arm) — changes nothing in
the machine state except advancing PC by exactly 2 (in 16-bit
arithmetic). -/
theorem unknown_family_opcodes_only_advance_pc (cpu : CPU) (op rb : Nat)
    (hV : cpu.V.length = 16) (h : unknown_opcode op) :
    process_opcode cpu op rb = some { cpu with PC := (cpu.PC + 2) % 65536 } := by
  rw [process_opcode_eq _ _ _ hV]
  unfold process_body
  rcases h with ⟨h1, h2, h3⟩ | ⟨h1, h2, h3, h4⟩ | ⟨h1, h2, h3, h4⟩ |
    ⟨h1, h2, h3, h4, h5, h6, h7, h8, h9, h10, h11⟩
  · repeat rw [if_neg (by omega)]
    rw [if_pos (by omega)]
  · repeat rw [if_neg (by omega)]
    rw [if_pos (by omega)]
    repeat rw [if_neg (by omega)]
  · repeat rw [if_neg (by omega)]
    rw [if_pos (by omega)]
    repeat rw [if_neg (by omega)]
  · repeat rw [if_neg (by omega)]

/-- Claim C8 witness: the amended no-op property applied at the concrete
unassigned ALU opcode `0x8008` (low nibble 8) on `cpu0`. -/
theorem unknown_family_opcodes_only_advance_pc_witness :
    unknown_opcode 0x8008
    ∧ process_opcode cpu0 0x8008 0 = some { cpu0 with PC := (cpu0.PC + 2) % 65536 } :=
  ⟨by decide, unknown_family_opcodes_only_advance_pc cpu0 0x8008 0 rfl (by decide)⟩

set_option maxHeartbeats 2000000 in
/-- Claim C9, amended: the parity of PC is preserved by every instruction
outside `{00EE, 1nnn, 2nnn, Bnnn}` — each of them either adds an even
amount to PC (modulo 2^16) or leaves it unchanged — while those four can
set PC to an arbitrary (possibly odd) target. -/
theorem non_jump_opcodes_preserve_pc_parity (cpu : CPU) (op rb : Nat) (c' : CPU)
    (hV : cpu.V.length = 16)
    (h1 : op ≠ 0x00EE) (h2 : ¬(0x1000 ≤ op ∧ op ≤ 0x2FFF))
    (h3 : ¬(0xB000 ≤ op ∧ op ≤ 0xBFFF))
    (h : process_opcode cpu op rb = some c') : c'.PC % 2 = cpu.PC % 2 := by
  have h2' : op < 0x1000 ∨ 0x2FFF < op := by omega
  have h3' : op < 0xB000 ∨ 0xBFFF < op := by omega
  rw [process_opcode_eq _ _ _ hV] at h
  unfold process_body at h
  by_cases hc0 : op = 0x00E0
  · rw [if_pos hc0] at h
    injection h with h; subst h; dsimp only; all_goals omega
  rw [if_neg hc0] at h
  by_cases hc1 : op = 0x00EE
  · exact absurd hc1 h1
  rw [if_neg hc1] at h
  by_cases hc2 : op < 0x1000
  · rw [if_pos hc2] at h
    injection h with h; subst h; dsimp only; all_goals omega
  rw [if_neg hc2] at h
  by_cases hc3 : op ≤ 0x1FFF
  · exfalso; omega
  rw [if_neg hc3] at h
  by_cases hc4 : op ≤ 0x2FFF
  · exfalso; omega
  rw [if_neg hc4] at h
  by_cases hc5 : op ≤ 0x3FFF
  · rw [if_pos hc5] at h
    split at h <;> (injection h with h; subst h; dsimp only; all_goals omega)
  rw [if_neg hc5] at h
  by_cases hc6 : op ≤ 0x4FFF
  · rw [if_pos hc6] at h
    split at h <;> (injection h with h; subst h; dsimp only; all_goals omega)
  rw [if_neg hc6] at h
  by_cases hc7 : op ≤ 0x5FFF
  · rw [if_pos hc7] at h
    split at h <;> (injection h with h; subst h; dsimp only; all_goals omega)
  rw [if_neg hc7] at h
  by_cases hc8 : op ≤ 0x6FFF
  · rw [if_pos hc8] at h
    injection h with h; subst h; dsimp only; all_goals omega
  rw [if_neg hc8] at h
  by_cases hc9 : op ≤ 0x7FFF
  · rw [if_pos hc9] at h
    injection h with h; subst h; dsimp only; all_goals omega
  rw [if_neg hc9] at h
  by_cases hc10 : op ≤ 0x8FFF
  · rw [if_pos hc10] at h
    by_cases hn0 : op % 16 = 0
    · rw [if_pos hn0] at h
      injection h with h; subst h; dsimp only; all_goals omega
    rw [if_neg hn0] at h
    by_cases hn1 : op % 16 = 1
    · rw [if_pos hn1] at h
      injection h with h; subst h; dsimp only; all_goals omega
    rw [if_neg hn1] at h
    by_cases hn2 : op % 16 = 2
    · rw [if_pos hn2] at h
      injection h with h; subst h; dsimp only; all_goals omega
    rw [if_neg hn2] at h
    by_cases hn3 : op % 16 = 3
    · rw [if_pos hn3] at h
      injection h with h; subst h; dsimp only; all_goals omega
    rw [if_neg hn3] at h
    by_cases hn4 : op % 16 = 4
    · rw [if_pos hn4] at h
      injection h with h; subst h; dsimp only; all_goals omega
    rw [if_neg hn4] at h
    by_cases hn5 : op % 16 = 5
    · rw [if_pos hn5] at h
      injection h with h; subst h; dsimp only; all_goals omega
    rw [if_neg hn5] at h
    by_cases hn6 : op % 16 = 6
    · rw [if_pos hn6] at h
      injection h with h; subst h; dsimp only; all_goals omega
    rw [if_neg hn6] at h
    by_cases hn7 : op % 16 = 7
    · rw [if_pos hn7] at h
      injection h with h; subst h; dsimp only; all_goals omega
    rw [if_neg hn7] at h
    by_cases hnE : op % 16 = 0xE
    · rw [if_pos hnE] at h
      injection h with h; subst h; dsimp only; all_goals omega
    rw [if_neg hnE] at h
    injection h with h; subst h; dsimp only; all_goals omega
  rw [if_neg hc10] at h
  by_cases hc11 : op ≤ 0x9FFF
  · rw [if_pos hc11] at h
    split at h <;> (injection h with h; subst h; dsimp only; all_goals omega)
  rw [if_neg hc11] at h
  by_cases hc12 : op ≤ 0xAFFF
  · rw [if_pos hc12] at h
    injection h with h; subst h; dsimp only; all_goals omega
  rw [if_neg hc12] at h
  by_cases hc13 : op ≤ 0xBFFF
  · exfalso; omega
  rw [if_neg hc13] at h
  by_cases hc14 : op ≤ 0xCFFF
  · rw [if_pos hc14] at h
    injection h with h; subst h; dsimp only; all_goals omega
  rw [if_neg hc14] at h
  by_cases hc15 : op ≤ 0xDFFF
  · rw [if_pos hc15] at h
    split at h
    · exact Option.noConfusion h
    · injection h with h; subst h; dsimp only; all_goals omega
  rw [if_neg hc15] at h
  by_cases hc16 : op ≤ 0xEFFF
  · rw [if_pos hc16] at h
    by_cases hk9E : op % 256 = 0x9E
    · rw [if_pos hk9E] at h
      split at h
      · exact Option.noConfusion h
      · split at h <;> (injection h with h; subst h; dsimp only; all_goals omega)
    rw [if_neg hk9E] at h
    by_cases hkA1 : op % 256 = 0xA1
    · rw [if_pos hkA1] at h
      split at h
      · exact Option.noConfusion h
      · split at h <;> (injection h with h; subst h; dsimp only; all_goals omega)
    rw [if_neg hkA1] at h
    injection h with h; subst h; dsimp only; all_goals omega
  rw [if_neg hc16] at h
  by_cases hk07 : op % 256 = 0x07
  · rw [if_pos hk07] at h
    injection h with h; subst h; dsimp only; all_goals omega
  rw [if_neg hk07] at h
  by_cases hk08 : op % 256 = 0x08
  · rw [if_pos hk08] at h
    split at h
    · exact Option.noConfusion h
    · injection h with h; subst h; dsimp only at *; rw [waitKeyFold_PC]; omega
  rw [if_neg hk08] at h
  by_cases hk15 : op % 256 = 0x15
  · rw [if_pos hk15] at h
    injection h with h; subst h; dsimp only; all_goals omega
  rw [if_neg hk15] at h
  by_cases hk18 : op % 256 = 0x18
  · rw [if_pos hk18] at h
    injection h with h; subst h; dsimp only; all_goals omega
  rw [if_neg hk18] at h
  by_cases hk1E : op % 256 = 0x1E
  · rw [if_pos hk1E] at h
    injection h with h; subst h; dsimp only; all_goals omega
  rw [if_neg hk1E] at h
  by_cases hk29 : op % 256 = 0x29
  · rw [if_pos hk29] at h
    injection h with h; subst h; dsimp only; all_goals omega
  rw [if_neg hk29] at h
  by_cases hk33 : op % 256 = 0x33
  · rw [if_pos hk33] at h
    split at h
    · injection h with h; subst h; dsimp only; all_goals omega
    · exact Option.noConfusion h
  rw [if_neg hk33] at h
  by_cases hk55 : op % 256 = 0x55
  · rw [if_pos hk55] at h
    split at h
    · injection h with h; subst h; dsimp only; all_goals omega
    · exact Option.noConfusion h
  rw [if_neg hk55] at h
  by_cases hk65 : op % 256 = 0x65
  · rw [if_pos hk65] at h
    split at h
    · injection h with h; subst h; dsimp only; all_goals omega
    · exact Option.noConfusion h
  rw [if_neg hk65] at h
  injection h with h; subst h; dsimp only; all_goals omega

/-- Claim C9 witness: parity preservation applied at the concrete opcode
`0x6012` (`LD V0, 0x12`) on `cpu0` (PC goes 0x200 → 0x202, parity 0). -/
theorem non_jump_opcodes_preserve_pc_parity_witness :
    ({ cpu0 with V := (List.replicate 16 0).set 0 0x12, PC := 0x202 } : CPU).PC % 2
      = cpu0.PC % 2 :=
  non_jump_opcodes_preserve_pc_parity cpu0 0x6012 0 _ rfl (by omega) (by omega)
    (by omega) rfl

/-- Claim C10: for all coordinates, the framebuffer index computed in
`draw_sprite` is below 64·32 = 2048 (the row offset is a multiple of 64
below 2048 and the column below 64), so with a 2048-pixel screen and the
precondition `I + n ≤ 4096` on a 4096-byte memory every access in
`draw_sprite` is in bounds and it returns `some` (no panic); without the
precondition the sprite slice `memory[I..I+n]` is out of bounds and the
draw fails (`none`). -/
theorem draw_sprite_accesses_in_bounds (screen memory : List Nat) (n I vx vy : Nat)
    (hs : screen.length = 2048) (hm : memory.length = 4096) (hn : I + n ≤ 4096) :
    (∀ r b, screenIndex vx vy r b < 2048)
      ∧ (∃ scr collision, draw_sprite screen memory n I vx vy = some (scr, collision)
          ∧ scr.length = 2048)
      ∧ (∀ J m, 4096 < J + m → draw_sprite screen memory m J vx vy = none) := by
  refine ⟨fun r b => screenIndex_lt vx vy r b, ?_, ?_⟩
  · unfold draw_sprite
    rw [if_pos (by omega)]
    obtain ⟨⟨scr, col⟩, h, hl⟩ := foldlM_drawRow_some vx vy _ (screen, false) hs
    exact ⟨scr, col, h, hl⟩
  · intro J m h
    unfold draw_sprite
    rw [if_neg (by omega)]

/-- Claim C10 witness: the bounds property applied at the blank screen and
zeroed memory with `n = 1`, `I = 0`. -/
theorem draw_sprite_accesses_in_bounds_witness :
    (List.replicate 2048 0 : List Nat).length = 2048
    ∧ (List.replicate 4096 0 : List Nat).length = 4096
    ∧ 0 + 1 ≤ 4096
    ∧ ((∀ r b, screenIndex 0 0 r b < 2048)
        ∧ (∃ scr collision,
            draw_sprite (List.replicate 2048 0) (List.replicate 4096 0) 1 0 0 0
              = some (scr, collision) ∧ scr.length = 2048)
        ∧ (∀ J m, 4096 < J + m →
            draw_sprite (List.replicate 2048 0) (List.replicate 4096 0) m J 0 0 = none)) :=
  ⟨by simp [-List.reduceReplicate], by simp [-List.reduceReplicate], by norm_num,
    draw_sprite_accesses_in_bounds (List.replicate 2048 0) (List.replicate 4096 0)
      1 0 0 0 (by simp [-List.reduceReplicate]) (by simp [-List.reduceReplicate])
      (by norm_num)⟩

end Chip8
